import Mathlib

/-!
Shallow embedding of the CEF implied-NAV tracker (`server.py` and `tracker.py`):
the aggregation loop that folds per-holding price changes into a fund-level
implied move, the alert-level state machine, the memory cache in front of
`generate_data`, the atomic dashboard write, the cold-start restore and the
standalone loop's day-rollover / price-map update logic.

Python floats are modelled as rationals (`ℚ`), Python dicts as association
lists with first-match lookup and in-place overwriting insertion, and Python's
banker's rounding (`round`) as an explicit half-to-even rounding on `ℚ`.
-/

namespace CefCaller

/-- Association-list dictionary keyed by strings; models a Python `dict`
(lookup by key, insertion overwrites an existing key in place). -/
abbrev Dict (α : Type) := List (String × α)

/-- `d.get(k)` on a Python dict: the value at the first matching key. -/
def dlookup {α : Type} : Dict α → String → Option α
  | [], _ => none
  | (k', v) :: rest, k => if k' = k then some v else dlookup rest k

/-- `d[k] = v` on a Python dict: overwrite the first matching key, or append. -/
def dinsert {α : Type} : Dict α → String → α → Dict α
  | [], k, v => [(k, v)]
  | (k', v') :: rest, k, v =>
      if k' = k then (k, v) :: rest else (k', v') :: dinsert rest k v

/-- Removal of a key (used to model the source file disappearing in a rename). -/
def dremove {α : Type} : Dict α → String → Dict α
  | [], _ => []
  | (k', v) :: rest, k =>
      if k' = k then dremove rest k else (k', v) :: dremove rest k

/-- `old.update(new)` on Python dicts: every entry of `new` is written into
`old`, overwriting existing keys; keys absent from `new` are untouched. -/
def dictUpdate {α : Type} (old new : Dict α) : Dict α :=
  new.foldl (fun d kv => dinsert d kv.1 kv.2) old

/-- Python's `round` on a rational: round half to even (banker's rounding). -/
def pyRound (q : ℚ) : ℤ :=
  if q - (⌊q⌋ : ℚ) < 1/2 then ⌊q⌋
  else if 1/2 < q - (⌊q⌋ : ℚ) then ⌊q⌋ + 1
  else if ⌊q⌋ % 2 = 0 then ⌊q⌋ else ⌊q⌋ + 1

/-- Python's `round(q, n)`. -/
def roundTo (n : ℕ) (q : ℚ) : ℚ :=
  (pyRound (q * ((10 : ℚ) ^ n)) : ℚ) / ((10 : ℚ) ^ n)

/-- One holding of a fund as stored in `all_holdings.json`: a ticker symbol and
a weight in percentage points (may be negative for short exposure). -/
structure Stock where
  symbol : String
  weight : ℚ
deriving DecidableEq

/-- The holdings store: fund name → ordered holding list, in iteration order. -/
abbrev Holdings := List (String × List Stock)

/-- One entry of the price database: the value shape produced by
`fetch_yahoo_snapshot` (price, change_percent, source) and by `restore_state`
(change_percent, source, price = None, prev_close = None). Keys a given
producer does not set are modelled as `none` / `""`. -/
structure PriceInfo where
  price : Option ℚ := none
  change_percent : Option ℚ := none
  source : String := ""
  prev_close : Option ℚ := none
deriving DecidableEq

/-- One entry of a fund's `detailed_holdings` output list. -/
structure HoldingOut where
  symbol : String
  weight : ℚ
  change : Option ℚ
  source : String
deriving DecidableEq

/-- One per-fund entry of the dashboard output (`dashboard_data["cefs"]`). -/
structure CefOut where
  name : String
  implied_move : ℚ
  tracked_weight : ℚ
  status : String
  holdings : List HoldingOut
deriving DecidableEq

/-- The full dashboard payload. -/
structure Dashboard where
  last_updated : String
  cefs : List CefOut
deriving DecidableEq

/-- `price_db.get(sym, {}).get('change_percent')`. -/
def holdingChange (price_db : Dict PriceInfo) (sym : String) : Option ℚ :=
  (dlookup price_db sym).bind (fun pi => pi.change_percent)

/-- The per-holding accumulation loop shared verbatim by `generate_data`
(server.py lines 134-153) and `export_dashboard` (tracker.py lines 118-138):
folds each holding's change and weight into the running
`total_weighted_change`, `total_weight_tracked` and `detailed_holdings`.
A symbol absent from `price_db`, or present without `change_percent`,
contributes 0 and its weight is not tracked. -/
def processHoldings (price_db : Dict PriceInfo) (holdings : List Stock) :
    ℚ × ℚ × List HoldingOut :=
  holdings.foldl
    (fun acc st =>
      let p_data := dlookup price_db st.symbol
      let chg := p_data.bind (fun pi => pi.change_percent)
      let src := (p_data.map (fun pi => pi.source)).getD ""
      let calc_chg := chg.getD 0
      let impact := calc_chg * st.weight / 100
      (acc.1 + impact,
       (if chg.isSome then acc.2.1 + st.weight else acc.2.1),
       acc.2.2 ++ [⟨st.symbol, st.weight, chg, src⟩]))
    (0, 0, [])

/-- The threshold table of the alert logic (server.py lines 156-165,
tracker.py lines 141-150): level 2 when `|move| >= 1.0`, else level 1 when
`|move| >= 0.5`, else level 0.  Applied to the unrounded
`total_weighted_change`. -/
def computeAlertLevel (move : ℚ) : ℕ :=
  if 1 ≤ |move| then 2
  else if 1/2 ≤ |move| then 1
  else 0

/-- The escalation decision (server.py lines 168-180, tracker.py 152-165):
when the computed level strictly exceeds the stored level, a notification is
emitted (modelled as `some computedLevel`) and the stored level becomes the
computed level; otherwise nothing is emitted and the level is unchanged. -/
def evaluateAlert (lastLvl : ℕ) (move : ℚ) : ℕ × Option ℕ :=
  let lvl := computeAlertLevel move
  if lvl > lastLvl then (lvl, some lvl) else (lastLvl, none)

/-- `"UP" if total_weighted_change >= 0 else "DOWN"` (server.py line 186,
tracker.py line 171), applied to the unrounded total. -/
def fundStatus (total : ℚ) : String :=
  if 0 ≤ total then "UP" else "DOWN"

/-- Feeding a sequence of implied moves through the alert state machine,
recording for each step the notification it emitted (if any). -/
def runAlertSeq (lvl : ℕ) (moves : List ℚ) : ℕ × List (Option ℕ) :=
  moves.foldl
    (fun acc m =>
      let r := evaluateAlert acc.1 m
      (r.1, acc.2 ++ [r.2]))
    (lvl, [])

/-- The per-fund body of the aggregation loop (server.py lines 129-188,
tracker.py lines 113-173): aggregate the holdings, run the alert decision
against the stored level (server reads it with `.get(name, 0)`; the tracker
indexes directly but its `main` pre-populates a 0 entry for every fund, where
the two coincide), and build the fund's dashboard entry with the 3-decimal
rounded move, 1-decimal rounded tracked weight and sign-derived status. -/
def processFund (price_db : Dict PriceInfo) (states : Dict ℕ) (name : String)
    (holdings : List Stock) : CefOut × Dict ℕ × Option ℕ :=
  let r := processHoldings price_db holdings
  let lastLvl := (dlookup states name).getD 0
  let e := evaluateAlert lastLvl r.1
  let states' :=
    match e.2 with
    | some lvl => dinsert states name lvl
    | none => states
  (⟨name, roundTo 3 r.1, roundTo 1 r.2.1, fundStatus r.1, r.2.2⟩, states', e.2)

/-- The whole-store aggregation fold shared by `generate_data` and
`export_dashboard`: runs `processFund` over the funds in store order,
threading the alert-state dict and collecting the emitted notifications as
`(fund name, level)` pairs. -/
def aggregateFunds (all_cefs : Holdings) (price_db : Dict PriceInfo)
    (states : Dict ℕ) : List CefOut × Dict ℕ × List (String × ℕ) :=
  all_cefs.foldl
    (fun acc fund =>
      let pr := processFund price_db acc.2.1 fund.1 fund.2
      (acc.1 ++ [pr.1],
       pr.2.1,
       match pr.2.2 with
       | some lvl => acc.2.2 ++ [(fund.1, lvl)]
       | none => acc.2.2))
    ([], states, [])

/-- `generate_data` (server.py lines 103-190): error result when the holdings
store yields an empty mapping; otherwise lazily initialize the alert-state
dict to 0 for every fund if it is empty, aggregate every fund against the
price database (the Yahoo fetch result, passed here as a parameter since the
provider is an external collaborator), and return the dashboard together with
the updated alert states and the notifications that were sent. -/
def generate_data (all_cefs : Holdings) (price_db : Dict PriceInfo)
    (alert_states : Dict ℕ) (timestamp : String) :
    Except String (Dashboard × Dict ℕ × List (String × ℕ)) :=
  if all_cefs = [] then Except.error "Holdings not found"
  else
    let states0 :=
      if alert_states = [] then all_cefs.map (fun c => (c.1, (0 : ℕ)))
      else alert_states
    let r := aggregateFunds all_cefs price_db states0
    Except.ok (⟨timestamp, r.1⟩, r.2.1, r.2.2)

/-- The dashboard-building part of `export_dashboard` (tracker.py lines
106-173): identical per-fund loop to `generate_data`, but with no
empty-holdings check and no lazy state initialization (tracker's `main`
pre-populates a 0 entry per fund).  `ref_prices` is accepted and unused,
as in the source. -/
def export_dashboard (all_cefs : Holdings) (price_db : Dict PriceInfo)
    (ref_prices : Dict ℚ) (alert_states : Dict ℕ) (timestamp : String) :
    Dashboard × Dict ℕ × List (String × ℕ) :=
  let r := aggregateFunds all_cefs price_db alert_states
  (⟨timestamp, r.1⟩, r.2.1, r.2.2)

/-- Mutable state of the standalone loop in tracker.py `main`: the reference
baseline (`ref_data`), the carried-forward per-symbol price map and the
per-fund alert levels. -/
structure LoopState where
  refDate : String
  refPrices : Dict ℚ
  priceDB : Dict PriceInfo
  alertStates : Dict ℕ
deriving DecidableEq

/-- The midnight-reset step (tracker.py lines 234-240): when the stored
reference date differs from today, reset the baseline to `{date: today,
prices: {}}`, clear the carried price map and zero every fund's alert
level. -/
def midnightReset (fundNames : List String) (today : String) (st : LoopState) :
    LoopState :=
  if st.refDate ≠ today then
    { refDate := today, refPrices := [], priceDB := [],
      alertStates := fundNames.map (fun c => (c, 0)) }
  else st

/-- One iteration of the standalone loop body (tracker.py lines 230-251):
midnight reset, then — only when the Yahoo fetch returned a nonempty
mapping — merge the fetch into the price map with `dict.update` and export
the dashboard (which may advance alert levels); an empty fetch leaves all
state untouched ("Keeping old values"). -/
def yahooCycle (all_cefs : Holdings) (today : String)
    (yahoo_data : Dict PriceInfo) (timestamp : String) (st : LoopState) :
    LoopState :=
  let st1 := midnightReset (all_cefs.map (fun c => c.1)) today st
  if yahoo_data = [] then st1
  else
    let db' := dictUpdate st1.priceDB yahoo_data
    let e := export_dashboard all_cefs db' st1.refPrices st1.alertStates timestamp
    { st1 with priceDB := db', alertStates := e.2.1 }

/-- A filesystem operation: writing a whole file, or `os.replace` (atomic
rename over the destination). -/
inductive FSOp where
  | write (name content : String)
  | rename (src dst : String)
deriving DecidableEq

/-- The filesystem as a mapping from file name to content. -/
abbrev FS := Dict String

/-- Effect of one completed operation.  `os.replace` moves the source's
content over the destination in one step (no-op here when the source is
missing; the Python call would raise, a case the export sequence never
reaches). -/
def applyOp (fs : FS) : FSOp → FS
  | FSOp.write n c => dinsert fs n c
  | FSOp.rename s d =>
      match dlookup fs s with
      | some c => dinsert (dremove fs s) d c
      | none => fs

def runOps (fs : FS) (ops : List FSOp) : FS :=
  ops.foldl applyOp fs

/-- Effect of an operation interrupted by a crash: an interrupted write can
leave arbitrary partial bytes at its target name; `os.replace` is atomic, so
an interrupted rename has no effect at all. -/
def applyInterrupted (fs : FS) (op : FSOp) (junk : String) : FS :=
  match op with
  | FSOp.write n _ => dinsert fs n junk
  | FSOp.rename _ _ => fs

def DASHBOARD_FILE : String := "dashboard_data.json"

/-- `temp_file = DASHBOARD_FILE + ".tmp"` (tracker.py line 175). -/
def dashboardTempFile : String := DASHBOARD_FILE ++ ".tmp"

/-- The durable-write sequence of `export_dashboard` (tracker.py lines
175-178): write the serialized new snapshot to the temp name, then
`os.replace` it over the canonical name. -/
def exportOps (content : String) : List FSOp :=
  [FSOp.write dashboardTempFile content,
   FSOp.rename dashboardTempFile DASHBOARD_FILE]

/-- Per-holding body of `restore_state`'s loop (tracker.py lines 188-200):
`if sym and chg is not None`, i.e. only a truthy (non-empty) symbol with a
non-null recorded change produces an entry, carrying the change and source
with `price` and `prev_close` set to null. -/
def restoreStep (db : Dict PriceInfo) (h : HoldingOut) : Dict PriceInfo :=
  if h.symbol ≠ "" ∧ h.change.isSome then
    dinsert db h.symbol
      { price := none, change_percent := h.change, source := h.source,
        prev_close := none }
  else db

/-- `restore_state` (tracker.py lines 180-204): rebuild a price database from
the durable dashboard snapshot; a missing or unreadable snapshot (`none`) is
treated as no prior state and yields the empty mapping without raising. -/
def restore_state (snap : Option Dashboard) : Dict PriceInfo :=
  match snap with
  | none => []
  | some data =>
      data.cefs.foldl (fun db cef => cef.holdings.foldl restoreStep db) []

/-- `CACHE_DURATION = 60` (server.py line 37). -/
def CACHE_DURATION : ℚ := 60

/-- The memory cache in front of `generate_data` (server.py lines 38-41):
a timestamp and the last stored dashboard (`none` models the initial
`"data": None`). -/
structure Cache where
  last_updated : ℚ
  data : Option Dashboard
deriving DecidableEq

/-- Observable outcome of one `/data` request: the returned payload
(dashboard or error), the cache and alert-state dicts afterwards, the
notifications sent, and whether `generate_data` was invoked on this call
(`false` means the cached data was served with no price fetch, no
recomputation and no alert evaluation). -/
structure GetDataResult where
  response : Except String Dashboard
  cache : Cache
  alert_states : Dict ℕ
  messages : List (String × ℕ)
  generated : Bool

/-- The cache-miss path of `get_data` (server.py lines 215-221): run
`generate_data`; only when it returns a dashboard (no `"error"` key) is the
cache overwritten with it at `last_updated = now`; either way the generated
payload is returned. -/
def refreshData (cache : Cache) (now : ℚ) (all_cefs : Holdings)
    (price_db : Dict PriceInfo) (alert_states : Dict ℕ) (timestamp : String) :
    GetDataResult :=
  match generate_data all_cefs price_db alert_states timestamp with
  | Except.ok (d, st, msgs) => ⟨Except.ok d, ⟨now, some d⟩, st, msgs, true⟩
  | Except.error e => ⟨Except.error e, cache, alert_states, [], true⟩

/-- `get_data` (server.py lines 208-221): serve the cached dashboard
unchanged when one exists and `now - last_updated < CACHE_DURATION`;
otherwise fall through to the regeneration path. -/
def get_data (cache : Cache) (now : ℚ) (all_cefs : Holdings)
    (price_db : Dict PriceInfo) (alert_states : Dict ℕ) (timestamp : String) :
    GetDataResult :=
  match cache.data with
  | some d =>
      if now - cache.last_updated < CACHE_DURATION then
        ⟨Except.ok d, cache, alert_states, [], false⟩
      else
        refreshData cache now all_cefs price_db alert_states timestamp
  | none => refreshData cache now all_cefs price_db alert_states timestamp

theorem dlookup_dinsert {α : Type} (d : Dict α) (k : String) (v : α) (k' : String) :
    dlookup (dinsert d k v) k' = if k = k' then some v else dlookup d k' := by
  induction d with
  | nil => simp [dinsert, dlookup]
  | cons kv rest ih =>
      obtain ⟨a, b⟩ := kv
      by_cases hak : a = k
      · subst hak
        by_cases hkk : a = k'
        · subst hkk
          simp [dinsert, dlookup]
        · simp [dinsert, dlookup, hkk]
      · by_cases hak' : a = k'
        · subst hak'
          have hkk : ¬ k = a := fun hh => hak hh.symm
          simp [dinsert, dlookup, hak, hkk]
        · simp [dinsert, dlookup, hak, hak', ih]

theorem dlookup_dremove {α : Type} (d : Dict α) (k k' : String) (h : k' ≠ k) :
    dlookup (dremove d k) k' = dlookup d k' := by
  induction d with
  | nil => simp [dremove, dlookup]
  | cons kv rest ih =>
      obtain ⟨a, b⟩ := kv
      by_cases hak : a = k
      · subst hak
        have hk' : ¬ a = k' := fun hh => h hh.symm
        simp [dremove, dlookup, hk', ih]
      · by_cases hak' : a = k'
        · subst hak'
          simp [dremove, dlookup, hak]
        · simp [dremove, dlookup, hak, hak', ih]

theorem dlookup_dictUpdate_of_notin {α : Type} (new : Dict α) (old : Dict α)
    (k : String) (h : dlookup new k = none) :
    dlookup (dictUpdate old new) k = dlookup old k := by
  induction new generalizing old with
  | nil => simp [dictUpdate]
  | cons kv rest ih =>
      obtain ⟨a, b⟩ := kv
      by_cases hak : a = k
      · simp [dlookup, hak] at h
      · simp [dlookup, hak] at h
        have step : dictUpdate old ((a, b) :: rest) = dictUpdate (dinsert old a b) rest := by
          simp [dictUpdate]
        rw [step, ih (dinsert old a b) h, dlookup_dinsert, if_neg hak]

theorem dlookup_dictUpdate_isSome {α : Type} (new : Dict α) (old : Dict α)
    (k : String) (h : (dlookup old k).isSome) :
    (dlookup (dictUpdate old new) k).isSome := by
  induction new generalizing old with
  | nil => simpa [dictUpdate] using h
  | cons kv rest ih =>
      obtain ⟨a, b⟩ := kv
      have step : dictUpdate old ((a, b) :: rest) = dictUpdate (dinsert old a b) rest := by
        simp [dictUpdate]
      rw [step]
      apply ih
      rw [dlookup_dinsert]
      by_cases hak : a = k
      · simp [hak]
      · simpa [hak] using h

theorem processHoldings_go (price_db : Dict PriceInfo) (holdings : List Stock)
    (a b : ℚ) (c : List HoldingOut) :
    holdings.foldl
      (fun acc st =>
        let p_data := dlookup price_db st.symbol
        let chg := p_data.bind (fun pi => pi.change_percent)
        let src := (p_data.map (fun pi => pi.source)).getD ""
        let calc_chg := chg.getD 0
        let impact := calc_chg * st.weight / 100
        (acc.1 + impact,
         (if chg.isSome then acc.2.1 + st.weight else acc.2.1),
         acc.2.2 ++ [⟨st.symbol, st.weight, chg, src⟩]))
      (a, b, c)
    = (a + ((holdings.map
          (fun st => (holdingChange price_db st.symbol).getD 0 * st.weight / 100)).sum),
       b + (((holdings.filter
          (fun st => (holdingChange price_db st.symbol).isSome)).map
            (fun st => st.weight)).sum),
       c ++ holdings.map (fun st =>
          (⟨st.symbol, st.weight, holdingChange price_db st.symbol,
            ((dlookup price_db st.symbol).map (fun pi => pi.source)).getD ""⟩ : HoldingOut))) := by
  induction holdings generalizing a b c with
  | nil => simp
  | cons st rest ih =>
      simp only [holdingChange] at ih ⊢
      simp only [List.foldl_cons, List.map_cons, List.filter_cons, List.sum_cons]
      rw [ih]
      cases hc : ((dlookup price_db st.symbol).bind fun pi => pi.change_percent).isSome with
      | false => simp [hc, add_assoc]
      | true => simp [hc, add_assoc]

/-- C1: for every price database and holding list, the internally accumulated
`total_weighted_change` equals the sum over all holdings, in list order and
with duplicates included, of `change_percent * weight / 100` where a missing
change contributes 0; `total_weight_tracked` equals the sum of the weights of
exactly the holdings whose change was present; and on the spec's example fund
(weights 50, 30, 20 with changes 2.0, missing, -4.0) the results are
implied move 0.2 = 1/5 and tracked weight 70. -/
theorem implied_move_is_weighted_sum :
    (∀ (price_db : Dict PriceInfo) (holdings : List Stock),
      (processHoldings price_db holdings).1
        = ((holdings.map
            (fun st => (holdingChange price_db st.symbol).getD 0 * st.weight / 100)).sum)
      ∧ (processHoldings price_db holdings).2.1
        = (((holdings.filter
            (fun st => (holdingChange price_db st.symbol).isSome)).map
              (fun st => st.weight)).sum))
    ∧ (processHoldings
        [("A", { price := some 10, change_percent := some 2, source := "YAHOO" }),
         ("C", { price := some 10, change_percent := some (-4), source := "YAHOO" })]
        [⟨"A", 50⟩, ⟨"B", 30⟩, ⟨"C", 20⟩]).1 = 1/5
    ∧ (processHoldings
        [("A", { price := some 10, change_percent := some 2, source := "YAHOO" }),
         ("C", { price := some 10, change_percent := some (-4), source := "YAHOO" })]
        [⟨"A", 50⟩, ⟨"B", 30⟩, ⟨"C", 20⟩]).2.1 = 70 := by
  refine ⟨fun price_db holdings => ?_,
    by norm_num +decide [processHoldings, dlookup],
    by norm_num +decide [processHoldings, dlookup]⟩
  unfold processHoldings
  rw [processHoldings_go]
  simp

/-- C2: the status string is "UP" exactly when the (unrounded) implied move is
nonnegative ("DOWN" only on a strictly negative move); a fund with an empty
holding list aggregates to move 0, tracked weight 0 and status "UP"; a fund
none of whose holdings has price data aggregates to move 0, tracked weight 0
and status "UP"; and `generate_data` on such a store returns an ordinary
result (no error) whose single entry is `implied_move = 0, status = "UP"`. -/
theorem status_up_iff_nonneg_and_degenerate_funds :
    (∀ total : ℚ, fundStatus total = "UP" ↔ 0 ≤ total)
    ∧ (∀ price_db : Dict PriceInfo, processHoldings price_db [] = (0, 0, []))
    ∧ (∀ (price_db : Dict PriceInfo) (holdings : List Stock),
        (∀ st ∈ holdings, holdingChange price_db st.symbol = none) →
        (processHoldings price_db holdings).1 = 0
        ∧ (processHoldings price_db holdings).2.1 = 0
        ∧ fundStatus (processHoldings price_db holdings).1 = "UP")
    ∧ (∀ (n : String) (price_db : Dict PriceInfo) (ts : String),
        generate_data [(n, [])] price_db [] ts
          = Except.ok (⟨ts, [⟨n, 0, 0, "UP", []⟩]⟩, [(n, 0)], [])) := by
  refine ⟨fun total => ?_, fun price_db => ?_, fun price_db holdings h => ?_,
    fun n price_db ts => ?_⟩
  · unfold fundStatus
    split
    · simpa
    · constructor
      · intro hh
        exact absurd hh (by simp)
      · intro hh
        simp_all
  · simp [processHoldings]
  · have h1 : (processHoldings price_db holdings).1 = 0 := by
      unfold processHoldings
      rw [processHoldings_go]
      have hz : (holdings.map
          (fun st => (holdingChange price_db st.symbol).getD 0 * st.weight / 100)).sum
          = 0 := by
        apply List.sum_eq_zero
        intro x hx
        simp only [List.mem_map] at hx
        obtain ⟨st, hst, rfl⟩ := hx
        rw [h st hst]
        simp
      simp [hz]
    have h2 : (processHoldings price_db holdings).2.1 = 0 := by
      unfold processHoldings
      rw [processHoldings_go]
      have hf : holdings.filter
          (fun st => (holdingChange price_db st.symbol).isSome) = [] := by
        rw [List.filter_eq_nil_iff]
        intro st hst
        simp [h st hst]
      simp [hf]
    exact ⟨h1, h2, by rw [h1]; simp [fundStatus]⟩
  · have hproc : processHoldings price_db [] = ((0 : ℚ), (0 : ℚ), ([] : List HoldingOut)) := by
      simp [processHoldings]
    have heval : evaluateAlert 0 0 = (0, none) := by
      norm_num [evaluateAlert, computeAlertLevel]
    have hr3 : roundTo 3 (0 : ℚ) = 0 := by norm_num [roundTo, pyRound]
    have hr1 : roundTo 1 (0 : ℚ) = 0 := by norm_num [roundTo, pyRound]
    have hst : fundStatus 0 = "UP" := by norm_num [fundStatus]
    simp [generate_data, aggregateFunds, processFund, hproc, dlookup, heval,
      hr3, hr1, hst]

/-- C3: the alert level is computed from the absolute value of the fund's
implied move at full precision — level 2 iff `|m| ≥ 1`, level 1 iff
`0.5 ≤ |m| < 1`, level 0 iff `|m| < 0.5`; inside `processFund` the
notification decision is taken on the unrounded aggregate while the reported
`implied_move` field is its 3-decimal rounding; and on a fund whose unrounded
move is 0.4996 no alert fires (level 0) even though the externally reported
value 0.5 would sit exactly on the level-1 threshold. -/
theorem alert_level_uses_full_precision :
    (∀ m : ℚ,
      (computeAlertLevel m = 2 ↔ 1 ≤ |m|)
      ∧ (computeAlertLevel m = 1 ↔ 1/2 ≤ |m| ∧ |m| < 1)
      ∧ (computeAlertLevel m = 0 ↔ |m| < 1/2))
    ∧ (∀ (price_db : Dict PriceInfo) (states : Dict ℕ) (n : String)
        (holdings : List Stock),
        (processFund price_db states n holdings).2.2
          = (evaluateAlert ((dlookup states n).getD 0)
              (processHoldings price_db holdings).1).2
        ∧ (processFund price_db states n holdings).1.implied_move
          = roundTo 3 (processHoldings price_db holdings).1)
    ∧ ((processHoldings [("A", { change_percent := some (4996/10000) })]
          [⟨"A", 100⟩]).1 = 4996/10000
       ∧ computeAlertLevel (4996/10000) = 0
       ∧ roundTo 3 (4996/10000) = 1/2
       ∧ computeAlertLevel (roundTo 3 (4996/10000)) = 1
       ∧ (processFund [("A", { change_percent := some (4996/10000) })]
            [("F", 0)] "F" [⟨"A", 100⟩]).2.2 = none
       ∧ (processFund [("A", { change_percent := some (4996/10000) })]
            [("F", 0)] "F" [⟨"A", 100⟩]).1.implied_move = 1/2) := by
  have hfloor : ⌊(2498/5 : ℚ)⌋ = 499 := by
    rw [Int.floor_eq_iff]
    norm_num
  have hround : roundTo 3 (4996/10000 : ℚ) = 1/2 := by
    have h1 : (4996/10000 : ℚ) * (10 : ℚ) ^ (3 : ℕ) = 2498/5 := by norm_num
    unfold roundTo
    rw [h1]
    unfold pyRound
    rw [hfloor]
    norm_num
  have hlvl0 : computeAlertLevel (4996/10000) = 0 := by
    unfold computeAlertLevel
    rw [abs_of_nonneg (by norm_num : (0 : ℚ) ≤ 4996/10000)]
    norm_num
  have hlvl1 : computeAlertLevel (1/2) = 1 := by
    unfold computeAlertLevel
    rw [abs_of_nonneg (by norm_num : (0 : ℚ) ≤ 1/2)]
    norm_num
  have hproc : (processHoldings [("A",
      ({ change_percent := some (4996/10000) } : PriceInfo))]
      [⟨"A", 100⟩]).1 = 4996/10000 := by
    norm_num +decide [processHoldings, dlookup]
  have hpe : evaluateAlert 0 (processHoldings [("A",
      ({ change_percent := some (4996/10000) } : PriceInfo))]
      [⟨"A", 100⟩]).1 = (0, none) := by
    rw [hproc]
    simp only [evaluateAlert]
    rw [hlvl0]
    simp
  refine ⟨fun m => ⟨?_, ?_, ?_⟩, fun price_db states n holdings => ⟨rfl, rfl⟩,
    hproc, hlvl0, hround, by rw [hround]; exact hlvl1, ?_, ?_⟩
  · unfold computeAlertLevel
    by_cases h1 : 1 ≤ |m|
    · rw [if_pos h1]
      exact ⟨fun _ => h1, fun _ => rfl⟩
    · by_cases h2 : 1/2 ≤ |m|
      · rw [if_neg h1, if_pos h2]
        exact ⟨fun h => absurd h (by norm_num), fun hr => absurd hr h1⟩
      · rw [if_neg h1, if_neg h2]
        exact ⟨fun h => absurd h (by norm_num), fun hr => absurd hr h1⟩
  · unfold computeAlertLevel
    by_cases h1 : 1 ≤ |m|
    · rw [if_pos h1]
      exact ⟨fun h => absurd h (by norm_num),
        fun hr => absurd hr.2 (not_lt.mpr h1)⟩
    · by_cases h2 : 1/2 ≤ |m|
      · rw [if_neg h1, if_pos h2]
        exact ⟨fun _ => ⟨h2, lt_of_not_ge h1⟩, fun _ => rfl⟩
      · rw [if_neg h1, if_neg h2]
        exact ⟨fun h => absurd h (by norm_num), fun hr => absurd hr.1 h2⟩
  · unfold computeAlertLevel
    by_cases h1 : 1 ≤ |m|
    · rw [if_pos h1]
      exact ⟨fun h => absurd h (by norm_num),
        fun hr => absurd hr (not_lt.mpr (by linarith))⟩
    · by_cases h2 : 1/2 ≤ |m|
      · rw [if_neg h1, if_pos h2]
        exact ⟨fun h => absurd h (by norm_num),
          fun hr => absurd hr (not_lt.mpr h2)⟩
      · rw [if_neg h1, if_neg h2]
        exact ⟨fun _ => lt_of_not_ge h2, fun _ => rfl⟩
  · simp only [processFund]
    simp [dlookup, hpe]
  · simp only [processFund]
    rw [hproc]
    exact hround

/-- C4: the alert is a one-way ratchet — `evaluateAlert` emits a notification
and stores the computed level exactly when the computed level strictly
exceeds the stored one, and otherwise changes nothing and emits nothing; and
from level 0 the move sequence 0.3, 0.6, 1.2, 0.4 produces notifications at
exactly the second step (level 1) and third step (level 2), nothing at 0.3 or
at the final 0.4, ending at level 2. -/
theorem alert_ratchet :
    (∀ (lvl : ℕ) (m : ℚ), computeAlertLevel m > lvl →
        evaluateAlert lvl m = (computeAlertLevel m, some (computeAlertLevel m)))
    ∧ (∀ (lvl : ℕ) (m : ℚ), computeAlertLevel m ≤ lvl →
        evaluateAlert lvl m = (lvl, none))
    ∧ runAlertSeq 0 [3/10, 6/10, 12/10, 4/10] = (2, [none, some 1, some 2, none]) := by
  refine ⟨fun lvl m h => ?_, fun lvl m h => ?_, ?_⟩
  · simp [evaluateAlert, h]
  · simp [evaluateAlert, Nat.not_lt.mpr h]
  · have l1 : computeAlertLevel (3/10) = 0 := by norm_num [computeAlertLevel, abs]
    have l2 : computeAlertLevel (6/10) = 1 := by norm_num [computeAlertLevel, abs]
    have l3 : computeAlertLevel (12/10) = 2 := by norm_num [computeAlertLevel, abs]
    have l4 : computeAlertLevel (4/10) = 0 := by norm_num [computeAlertLevel, abs]
    simp [runAlertSeq, evaluateAlert, l1, l2, l3, l4]

/-- Witness for the degenerate-fund theorem at a concrete store: a fund with
one priced-out holding aggregates to 0, and the store `[("G", [])]` with an
empty fund generates an ordinary "UP" result. -/
theorem status_up_witness :
    (processHoldings [] [⟨"X", 50⟩]).1 = 0
    ∧ generate_data [("G", [])] [] [] "09:00:00"
        = Except.ok (⟨"09:00:00", [⟨"G", 0, 0, "UP", []⟩]⟩, [("G", 0)], []) :=
  ⟨(status_up_iff_nonneg_and_degenerate_funds.2.2.1 [] [⟨"X", 50⟩]
      (by intro st _; simp [holdingChange, dlookup])).1,
   status_up_iff_nonneg_and_degenerate_funds.2.2.2 "G" [] "09:00:00"⟩

/-- Witness for the ratchet theorem: at stored level 0 and move 0.6 the
machine escalates to level 1 with a notification; at stored level 2 and move
0.4 nothing happens. -/
theorem alert_ratchet_witness :
    evaluateAlert 0 (6/10) = (1, some 1) ∧ evaluateAlert 2 (4/10) = (2, none) := by
  have l2 : computeAlertLevel (6/10) = 1 := by norm_num [computeAlertLevel, abs]
  have l4 : computeAlertLevel (4/10) = 0 := by norm_num [computeAlertLevel, abs]
  constructor
  · have := alert_ratchet.1 0 (6/10) (by rw [l2]; norm_num)
    rwa [l2] at this
  · have := alert_ratchet.2.1 2 (4/10) (by rw [l4]; norm_num)
    exact this

theorem dlookup_const_zero (names : List String) (n : String) (h : n ∈ names) :
    dlookup (names.map (fun c => (c, (0 : ℕ)))) n = some 0 := by
  induction names with
  | nil => cases h
  | cons a rest ih =>
      rcases List.mem_cons.mp h with rfl | hmem
      · simp [dlookup]
      · by_cases han : a = n
        · simp [dlookup, han]
        · simp [dlookup, han, ih hmem]

theorem computeAlertLevel_sixTenths : computeAlertLevel (6/10) = 1 := by
  unfold computeAlertLevel
  rw [abs_of_nonneg (by norm_num : (0 : ℚ) ≤ 6/10)]
  norm_num

theorem evaluateAlert_zero_sixTenths : evaluateAlert 0 (6/10) = (1, some 1) := by
  simp [evaluateAlert, computeAlertLevel_sixTenths]

/-- C5: when the current date differs from the stored reference date, the
midnight-reset step replaces the state with one where every fund's alert
level is 0, the reference baseline is `{date: today, prices: {}}` and the
carried price map is empty; in particular every fund then has stored level 0,
and at level 0 an implied move of 0.6 escalates to level 1 with a
notification — regardless of the level (e.g. 2) the fund held before. -/
theorem day_rollover_resets (fundNames : List String) (today : String)
    (st : LoopState) (h : st.refDate ≠ today) :
    midnightReset fundNames today st
      = { refDate := today, refPrices := [], priceDB := [],
          alertStates := fundNames.map (fun c => (c, 0)) }
    ∧ (∀ n ∈ fundNames,
        dlookup (midnightReset fundNames today st).alertStates n = some 0)
    ∧ evaluateAlert 0 (6/10) = (1, some 1) := by
  have hr : midnightReset fundNames today st
      = { refDate := today, refPrices := [], priceDB := [],
          alertStates := fundNames.map (fun c => (c, 0)) } := by
    simp [midnightReset, h]
  refine ⟨hr, ?_, evaluateAlert_zero_sixTenths⟩
  intro n hn
  rw [hr]
  exact dlookup_const_zero fundNames n hn

/-- Witness: a concrete state from the previous day with fund "F" at level 2
is reset and its next 0.6 move re-triggers a level-1 alert. -/
theorem day_rollover_witness :
    midnightReset ["F"] "2025-10-11"
      ⟨"2025-10-10", [("A", 12)], [("A", { change_percent := some 2 })], [("F", 2)]⟩
      = ⟨"2025-10-11", [], [], [("F", 0)]⟩
    ∧ evaluateAlert 0 (6/10) = (1, some 1) := by
  have h := day_rollover_resets ["F"] "2025-10-11"
    ⟨"2025-10-10", [("A", 12)], [("A", { change_percent := some 2 })], [("F", 2)]⟩
    (by decide)
  exact ⟨by simpa using h.1, h.2.2⟩

theorem processHoldings_congr (db1 db2 : Dict PriceInfo) (holdings : List Stock)
    (h : ∀ x ∈ holdings, dlookup db1 x.symbol = dlookup db2 x.symbol) :
    processHoldings db1 holdings = processHoldings db2 holdings := by
  have hc : ∀ x ∈ holdings, holdingChange db1 x.symbol = holdingChange db2 x.symbol := by
    intro x hx
    unfold holdingChange
    rw [h x hx]
  unfold processHoldings
  rw [processHoldings_go, processHoldings_go]
  have h1 : holdings.map
      (fun st => (holdingChange db1 st.symbol).getD 0 * st.weight / 100)
      = holdings.map
      (fun st => (holdingChange db2 st.symbol).getD 0 * st.weight / 100) :=
    List.map_congr_left (fun x hx => by rw [hc x hx])
  have h2 : holdings.filter (fun st => (holdingChange db1 st.symbol).isSome)
      = holdings.filter (fun st => (holdingChange db2 st.symbol).isSome) :=
    List.filter_congr (fun x hx => by rw [hc x hx])
  have h3 : holdings.map (fun st =>
      (⟨st.symbol, st.weight, holdingChange db1 st.symbol,
        ((dlookup db1 st.symbol).map (fun pi => pi.source)).getD ""⟩ : HoldingOut))
      = holdings.map (fun st =>
      (⟨st.symbol, st.weight, holdingChange db2 st.symbol,
        ((dlookup db2 st.symbol).map (fun pi => pi.source)).getD ""⟩ : HoldingOut)) :=
    List.map_congr_left (fun x hx => by rw [hc x hx, h x hx])
  rw [h1, h2, h3]

/-- C10: within one process day (reference date unchanged), a cycle of the
standalone loop never shrinks the per-symbol price map: an entry whose symbol
the fetch omits survives unchanged — in particular a cycle whose fetch
returns nothing at all leaves the whole map untouched — every previously
present symbol stays present, and a fund none of whose symbols were re-fetched
aggregates (implied move, tracked weight, detailed holdings) exactly as
before, i.e. stale changes keep contributing. -/
theorem price_db_never_shrinks (all_cefs : Holdings) (today : String)
    (yahoo_data : Dict PriceInfo) (ts : String) (st : LoopState)
    (h : st.refDate = today) :
    (∀ sym v, dlookup yahoo_data sym = none → dlookup st.priceDB sym = some v →
        dlookup (yahooCycle all_cefs today yahoo_data ts st).priceDB sym = some v)
    ∧ (∀ sym, (dlookup st.priceDB sym).isSome →
        (dlookup (yahooCycle all_cefs today yahoo_data ts st).priceDB sym).isSome)
    ∧ (yahoo_data = [] →
        (yahooCycle all_cefs today yahoo_data ts st).priceDB = st.priceDB)
    ∧ (∀ holdings : List Stock,
        (∀ x ∈ holdings, dlookup yahoo_data x.symbol = none) →
        processHoldings (yahooCycle all_cefs today yahoo_data ts st).priceDB holdings
          = processHoldings st.priceDB holdings) := by
  have hst1 : midnightReset (all_cefs.map (fun c => c.1)) today st = st := by
    simp [midnightReset, h]
  have hdb : (yahooCycle all_cefs today yahoo_data ts st).priceDB
      = if yahoo_data = [] then st.priceDB
        else dictUpdate st.priceDB yahoo_data := by
    unfold yahooCycle
    rw [hst1]
    by_cases hy : yahoo_data = []
    · simp [hy]
    · simp [hy]
  refine ⟨?_, ?_, ?_, ?_⟩
  · intro sym v hn hs
    rw [hdb]
    by_cases hy : yahoo_data = []
    · simpa [hy] using hs
    · rw [if_neg hy, dlookup_dictUpdate_of_notin _ _ _ hn]
      exact hs
  · intro sym hs
    rw [hdb]
    by_cases hy : yahoo_data = []
    · simpa [hy] using hs
    · rw [if_neg hy]
      exact dlookup_dictUpdate_isSome _ _ _ hs
  · intro hy
    rw [hdb, if_pos hy]
  · intro holdings hall
    rw [hdb]
    by_cases hy : yahoo_data = []
    · rw [if_pos hy]
    · rw [if_neg hy]
      apply processHoldings_congr
      intro x hx
      exact dlookup_dictUpdate_of_notin _ _ _ (hall x hx)

/-- Witness: a same-day cycle whose fetch contains only "B" preserves the
carried entry for "A" unchanged. -/
theorem price_db_never_shrinks_witness :
    dlookup (yahooCycle [("F", [⟨"A", 60⟩])] "2025-10-11"
        [("B", { change_percent := some 1 })] "10:00:00"
        ⟨"2025-10-11", [], [("A", { change_percent := some 2 })], [("F", 0)]⟩).priceDB
      "A" = some { change_percent := some 2 } :=
  (price_db_never_shrinks [("F", [⟨"A", 60⟩])] "2025-10-11"
      [("B", { change_percent := some 1 })] "10:00:00"
      ⟨"2025-10-11", [], [("A", { change_percent := some 2 })], [("F", 0)]⟩
      rfl).1 "A" { change_percent := some 2 }
    (by simp +decide [dlookup]) (by simp +decide [dlookup])

/-- C8: the durable snapshot write is atomic.  Starting from a filesystem
whose canonical dashboard file holds the previously committed snapshot
`old`, every crash point of the export sequence for a new snapshot — before
anything, in the middle of the temp write (arbitrary partial bytes), after
the temp write, or during the (atomic) replace — leaves the canonical name
still holding `old` intact; only the completed sequence changes it, to
exactly `new`; and at every point the canonical name holds one of the two
complete snapshots, never partial bytes. -/
theorem durable_write_atomic (fs : FS) (old new junk : String)
    (h : dlookup fs DASHBOARD_FILE = some old) :
    dlookup (applyInterrupted fs (FSOp.write dashboardTempFile new) junk)
        DASHBOARD_FILE = some old
    ∧ dlookup (runOps fs (List.take 1 (exportOps new))) DASHBOARD_FILE = some old
    ∧ applyInterrupted (runOps fs (List.take 1 (exportOps new)))
        (FSOp.rename dashboardTempFile DASHBOARD_FILE) junk
        = runOps fs (List.take 1 (exportOps new))
    ∧ dlookup (runOps fs (exportOps new)) DASHBOARD_FILE = some new
    ∧ (∀ k : ℕ,
        dlookup (runOps fs (List.take k (exportOps new))) DASHBOARD_FILE = some old
        ∨ dlookup (runOps fs (List.take k (exportOps new))) DASHBOARD_FILE = some new) := by
  have hne : ¬ dashboardTempFile = DASHBOARD_FILE := by decide
  have hwrite : ∀ c : String,
      dlookup (dinsert fs dashboardTempFile c) DASHBOARD_FILE = some old := by
    intro c
    rw [dlookup_dinsert, if_neg hne]
    exact h
  have htake1 : runOps fs (List.take 1 (exportOps new))
      = dinsert fs dashboardTempFile new := rfl
  have hfull : dlookup (runOps fs (exportOps new)) DASHBOARD_FILE = some new := by
    show dlookup (applyOp (dinsert fs dashboardTempFile new)
      (FSOp.rename dashboardTempFile DASHBOARD_FILE)) DASHBOARD_FILE = some new
    simp only [applyOp]
    rw [dlookup_dinsert, if_pos rfl]
    simp [dlookup_dinsert]
  refine ⟨hwrite junk, ?_, rfl, hfull, ?_⟩
  · rw [htake1]
    exact hwrite new
  · intro k
    match k with
    | 0 => exact Or.inl h
    | 1 => exact Or.inl (by rw [htake1]; exact hwrite new)
    | (n + 2) =>
        right
        have hlen : (exportOps new).length ≤ n + 2 := by
          simp [exportOps]
        rw [List.take_of_length_le hlen]
        exact hfull

/-- Witness: with canonical content "OLD" on disk, a crash during the temp
write leaves "OLD" readable, and the completed sequence commits "NEW". -/
theorem durable_write_atomic_witness :
    dlookup (applyInterrupted [(DASHBOARD_FILE, "OLD")]
        (FSOp.write dashboardTempFile "NEW") "GARBAGE") DASHBOARD_FILE = some "OLD"
    ∧ dlookup (runOps [(DASHBOARD_FILE, "OLD")] (exportOps "NEW"))
        DASHBOARD_FILE = some "NEW" := by
  have h := durable_write_atomic [(DASHBOARD_FILE, "OLD")] "OLD" "NEW" "GARBAGE"
    (by simp [dlookup])
  exact ⟨h.1, h.2.2.2.1⟩

theorem restoreStep_isSome (db : Dict PriceInfo) (h : HoldingOut) (sym : String) :
    (dlookup (restoreStep db h) sym).isSome
      ↔ (h.symbol = sym ∧ sym ≠ "" ∧ h.change.isSome)
        ∨ (dlookup db sym).isSome := by
  unfold restoreStep
  by_cases hc : h.symbol ≠ "" ∧ h.change.isSome
  · rw [if_pos hc, dlookup_dinsert]
    by_cases he : h.symbol = sym
    · rw [if_pos he]
      refine ⟨fun _ => Or.inl ⟨he, ?_, hc.2⟩, fun _ => rfl⟩
      rw [← he]
      exact hc.1
    · rw [if_neg he]
      constructor
      · exact Or.inr
      · rintro (⟨h1, _, _⟩ | h4)
        · exact absurd h1 he
        · exact h4
  · rw [if_neg hc]
    constructor
    · exact Or.inr
    · rintro (⟨h1, h2, h3⟩ | h4)
      · exact absurd ⟨by rw [h1]; exact h2, h3⟩ hc
      · exact h4

theorem restoreStep_content (db : Dict PriceInfo) (h : HoldingOut) (sym : String)
    (pi : PriceInfo) (hl : dlookup (restoreStep db h) sym = some pi) :
    (h.symbol = sym ∧ h.change.isSome
      ∧ pi = { price := none, change_percent := h.change, source := h.source,
               prev_close := none })
    ∨ dlookup db sym = some pi := by
  unfold restoreStep at hl
  by_cases hc : h.symbol ≠ "" ∧ h.change.isSome
  · rw [if_pos hc, dlookup_dinsert] at hl
    by_cases he : h.symbol = sym
    · rw [if_pos he] at hl
      exact Or.inl ⟨he, hc.2, (Option.some_injective _ hl).symm⟩
    · rw [if_neg he] at hl
      exact Or.inr hl
  · rw [if_neg hc] at hl
    exact Or.inr hl

theorem restoreFold_isSome (hs : List HoldingOut) (db : Dict PriceInfo)
    (sym : String) :
    (dlookup (hs.foldl restoreStep db) sym).isSome
      ↔ (∃ h ∈ hs, h.symbol = sym ∧ sym ≠ "" ∧ h.change.isSome)
        ∨ (dlookup db sym).isSome := by
  induction hs generalizing db with
  | nil => simp
  | cons h rest ih =>
      rw [List.foldl_cons, ih, restoreStep_isSome]
      simp only [List.mem_cons]
      constructor
      · rintro (⟨h', hh', hp⟩ | (hp | hold))
        · exact Or.inl ⟨h', Or.inr hh', hp⟩
        · exact Or.inl ⟨h, Or.inl rfl, hp⟩
        · exact Or.inr hold
      · rintro (⟨h', rfl | hh', hp⟩ | hold)
        · exact Or.inr (Or.inl hp)
        · exact Or.inl ⟨h', hh', hp⟩
        · exact Or.inr (Or.inr hold)

theorem restoreFold_content (hs : List HoldingOut) (db : Dict PriceInfo)
    (sym : String) (pi : PriceInfo)
    (hl : dlookup (hs.foldl restoreStep db) sym = some pi) :
    (∃ h ∈ hs, h.symbol = sym ∧ h.change.isSome
        ∧ pi = { price := none, change_percent := h.change, source := h.source,
                 prev_close := none })
    ∨ dlookup db sym = some pi := by
  induction hs generalizing db with
  | nil => exact Or.inr hl
  | cons h rest ih =>
      rw [List.foldl_cons] at hl
      rcases ih (restoreStep db h) hl with ⟨h', hh', hp⟩ | hstep
      · exact Or.inl ⟨h', List.mem_cons_of_mem _ hh', hp⟩
      · rcases restoreStep_content db h sym pi hstep with hh | hdb
        · exact Or.inl ⟨h, List.mem_cons_self _ _, hh⟩
        · exact Or.inr hdb

theorem restoreCefs_isSome (cefs : List CefOut) (db : Dict PriceInfo)
    (sym : String) :
    (dlookup (cefs.foldl (fun db cef => cef.holdings.foldl restoreStep db) db)
        sym).isSome
      ↔ (∃ cef ∈ cefs, ∃ h ∈ cef.holdings,
            h.symbol = sym ∧ sym ≠ "" ∧ h.change.isSome)
        ∨ (dlookup db sym).isSome := by
  induction cefs generalizing db with
  | nil => simp
  | cons c rest ih =>
      rw [List.foldl_cons, ih, restoreFold_isSome]
      simp only [List.mem_cons]
      constructor
      · rintro (⟨c', hc', hp⟩ | (hp | hold))
        · exact Or.inl ⟨c', Or.inr hc', hp⟩
        · exact Or.inl ⟨c, Or.inl rfl, hp⟩
        · exact Or.inr hold
      · rintro (⟨c', rfl | hc', hp⟩ | hold)
        · exact Or.inr (Or.inl hp)
        · exact Or.inl ⟨c', hc', hp⟩
        · exact Or.inr (Or.inr hold)

theorem restoreCefs_content (cefs : List CefOut) (db : Dict PriceInfo)
    (sym : String) (pi : PriceInfo)
    (hl : dlookup (cefs.foldl (fun db cef => cef.holdings.foldl restoreStep db) db)
        sym = some pi) :
    (∃ cef ∈ cefs, ∃ h ∈ cef.holdings, h.symbol = sym ∧ h.change.isSome
        ∧ pi = { price := none, change_percent := h.change, source := h.source,
                 prev_close := none })
    ∨ dlookup db sym = some pi := by
  induction cefs generalizing db with
  | nil => exact Or.inr hl
  | cons c rest ih =>
      rw [List.foldl_cons] at hl
      rcases ih _ hl with ⟨c', hc', hp⟩ | hstep
      · exact Or.inl ⟨c', List.mem_cons_of_mem _ hc', hp⟩
      · rcases restoreFold_content c.holdings db sym pi hstep with ⟨h', hh', hp⟩ | hdb
        · exact Or.inl ⟨c, List.mem_cons_self _ _, h', hh', hp⟩
        · exact Or.inr hdb

/-- C9 (amended): for every durable snapshot, the restored price mapping's
domain is exactly the non-empty symbols of holdings recorded with a non-null
change (the source's `if sym and chg is not None` also skips a falsy, i.e.
empty, symbol string); every restored entry has `price` and `prev_close`
null and carries some recorded holding's change as `change_percent` together
with its recorded source; and a missing or unreadable snapshot yields the
empty mapping without raising. -/
theorem restore_state_reconstruction (data : Dashboard) :
    (∀ sym : String,
      (dlookup (restore_state (some data)) sym).isSome
        ↔ sym ≠ "" ∧ ∃ cef ∈ data.cefs, ∃ h ∈ cef.holdings,
            h.symbol = sym ∧ h.change.isSome)
    ∧ (∀ (sym : String) (pi : PriceInfo),
        dlookup (restore_state (some data)) sym = some pi →
        pi.price = none ∧ pi.prev_close = none ∧ pi.change_percent.isSome
        ∧ ∃ cef ∈ data.cefs, ∃ h ∈ cef.holdings,
            h.symbol = sym ∧ h.change = pi.change_percent ∧ h.source = pi.source)
    ∧ restore_state none = [] := by
  refine ⟨fun sym => ?_, fun sym pi hl => ?_, rfl⟩
  · unfold restore_state
    rw [restoreCefs_isSome]
    simp only [dlookup, Option.isSome_none, Bool.false_eq_true, or_false]
    constructor
    · rintro ⟨c, hc, h, hh, h1, h2, h3⟩
      exact ⟨h2, c, hc, h, hh, h1, h3⟩
    · rintro ⟨h2, c, hc, h, hh, h1, h3⟩
      exact ⟨c, hc, h, hh, h1, h2, h3⟩
  · unfold restore_state at hl
    rcases restoreCefs_content data.cefs [] sym pi hl with ⟨c, hc, h, hh, h1, h2, h3⟩ | hnil
    · subst h3
      exact ⟨rfl, rfl, h2, c, hc, h, hh, h1, rfl, rfl⟩
    · simp [dlookup] at hnil

/-- Counterexample to C9 as stated: a snapshot holding with the empty-string
symbol and a non-null change produces no restored entry, because the
source's `if sym and chg is not None` treats the empty symbol as falsy —
so the restored domain is not exactly "the symbols of holdings recorded
with a non-null change". -/
theorem restore_state_skips_empty_symbol :
    ((⟨"", 1, some 1, "S"⟩ : HoldingOut).change).isSome = true
    ∧ dlookup (restore_state (some ⟨"12:00:00",
        [⟨"F", 0, 0, "UP", [⟨"", 1, some 1, "S"⟩]⟩]⟩)) "" = none := by
  constructor
  · rfl
  · simp [restore_state, restoreStep, dlookup]

/-- Witness: on a snapshot with holdings "A" (change 2.0) and "B" (change
null), the restored mapping contains "A", and the missing-snapshot case
yields the empty mapping. -/
theorem restore_state_witness :
    (dlookup (restore_state (some ⟨"12:00:00",
        [⟨"F", 1/2, 70, "UP",
          [⟨"A", 50, some 2, "YAHOO"⟩, ⟨"B", 30, none, ""⟩]⟩]⟩)) "A").isSome
    ∧ restore_state none = [] := by
  have h := restore_state_reconstruction ⟨"12:00:00",
    [⟨"F", 1/2, 70, "UP", [⟨"A", 50, some 2, "YAHOO"⟩, ⟨"B", 30, none, ""⟩]⟩]⟩
  refine ⟨(h.1 "A").mpr ⟨by decide, ?_⟩, h.2.2⟩
  exact ⟨_, List.mem_cons_self _ _, ⟨"A", 50, some 2, "YAHOO"⟩,
    List.mem_cons_self _ _, rfl, rfl⟩

/-- A store with one fund and no holdings generates an ordinary dashboard:
move 0, tracked weight 0, status "UP", level 0, no notification. -/
theorem generate_data_single_empty_fund (n : String) (price_db : Dict PriceInfo)
    (ts : String) :
    generate_data [(n, [])] price_db [] ts
      = Except.ok (⟨ts, [⟨n, 0, 0, "UP", []⟩]⟩, [(n, 0)], []) := by
  have hproc : processHoldings price_db [] = ((0 : ℚ), (0 : ℚ), ([] : List HoldingOut)) := by
    simp [processHoldings]
  have heval : evaluateAlert 0 0 = (0, none) := by
    norm_num [evaluateAlert, computeAlertLevel]
  have hr3 : roundTo 3 (0 : ℚ) = 0 := by norm_num [roundTo, pyRound]
  have hr1 : roundTo 1 (0 : ℚ) = 0 := by norm_num [roundTo, pyRound]
  have hst : fundStatus 0 = "UP" := by norm_num [fundStatus]
  simp [generate_data, aggregateFunds, processFund, hproc, dlookup, heval,
    hr3, hr1, hst]

/-- When the cache is absent or stale, `get_data` is the regeneration path. -/
theorem get_data_miss (cache : Cache) (now : ℚ) (all_cefs : Holdings)
    (price_db : Dict PriceInfo) (alert_states : Dict ℕ) (ts : String)
    (hstale : cache.data = none ∨ ¬ now - cache.last_updated < CACHE_DURATION) :
    get_data cache now all_cefs price_db alert_states ts
      = refreshData cache now all_cefs price_db alert_states ts := by
  rcases hc : cache.data with _ | d
  · simp [get_data, hc]
  · rcases hstale with hn | hf
    · rw [hc] at hn
      cases hn
    · simp only [get_data, hc]
      rw [if_neg hf]

/-- C6 (amended): the freshness window is the constant 60; when a cached
dashboard exists and `now - last_updated < CACHE_DURATION` it is returned
unchanged with no aggregation pass (no price fetch, no alert evaluation, no
cache change); when the cache is absent or stale the aggregation pass runs,
and its result is stored with `last_updated = now` exactly when it is a
dashboard — an error result leaves the cache unchanged; consequently a
successful miss at `now` followed by a second call at `now2` with
`now2 - now < 60` serves the identical stored dashboard without invoking the
pass (so the price provider ran at most once across the two calls). -/
theorem get_data_cache (cache : Cache) (now : ℚ) (all_cefs : Holdings)
    (price_db : Dict PriceInfo) (alert_states : Dict ℕ) (ts : String) :
    CACHE_DURATION = 60
    ∧ (∀ d : Dashboard, cache.data = some d →
        now - cache.last_updated < CACHE_DURATION →
        get_data cache now all_cefs price_db alert_states ts
          = ⟨Except.ok d, cache, alert_states, [], false⟩)
    ∧ ((cache.data = none ∨ ¬ now - cache.last_updated < CACHE_DURATION) →
        (get_data cache now all_cefs price_db alert_states ts).generated = true
        ∧ (∀ (d : Dashboard) (st : Dict ℕ) (msgs : List (String × ℕ)),
            generate_data all_cefs price_db alert_states ts
              = Except.ok (d, st, msgs) →
            get_data cache now all_cefs price_db alert_states ts
              = ⟨Except.ok d, ⟨now, some d⟩, st, msgs, true⟩)
        ∧ (∀ e : String,
            generate_data all_cefs price_db alert_states ts = Except.error e →
            get_data cache now all_cefs price_db alert_states ts
              = ⟨Except.error e, cache, alert_states, [], true⟩))
    ∧ (∀ (now2 : ℚ) (d : Dashboard) (st : Dict ℕ) (msgs : List (String × ℕ))
        (cefs2 : Holdings) (p2 : Dict PriceInfo) (s2 : Dict ℕ) (t2 : String),
        (cache.data = none ∨ ¬ now - cache.last_updated < CACHE_DURATION) →
        generate_data all_cefs price_db alert_states ts
          = Except.ok (d, st, msgs) →
        now2 - now < CACHE_DURATION →
        get_data cache now all_cefs price_db alert_states ts
            = ⟨Except.ok d, ⟨now, some d⟩, st, msgs, true⟩
        ∧ get_data ⟨now, some d⟩ now2 cefs2 p2 s2 t2
            = ⟨Except.ok d, ⟨now, some d⟩, s2, [], false⟩) := by
  have hok : ∀ (d : Dashboard) (st : Dict ℕ) (msgs : List (String × ℕ)),
      (cache.data = none ∨ ¬ now - cache.last_updated < CACHE_DURATION) →
      generate_data all_cefs price_db alert_states ts = Except.ok (d, st, msgs) →
      get_data cache now all_cefs price_db alert_states ts
        = ⟨Except.ok d, ⟨now, some d⟩, st, msgs, true⟩ := by
    intro d st msgs hstale hg
    rw [get_data_miss cache now all_cefs price_db alert_states ts hstale]
    simp only [refreshData, hg]
  refine ⟨rfl, ?_, fun hstale => ⟨?_, fun d st msgs hg => hok d st msgs hstale hg, ?_⟩,
    ?_⟩
  · intro d hd hfresh
    simp only [get_data, hd]
    rw [if_pos hfresh]
  · rw [get_data_miss cache now all_cefs price_db alert_states ts hstale]
    unfold refreshData
    cases hg : generate_data all_cefs price_db alert_states ts with
    | ok v =>
        obtain ⟨d, st, msgs⟩ := v
        rfl
    | error e => rfl
  · intro e hg
    rw [get_data_miss cache now all_cefs price_db alert_states ts hstale]
    simp only [refreshData, hg]
  · intro now2 d st msgs cefs2 p2 s2 t2 hstale hg hfresh2
    refine ⟨hok d st msgs hstale hg, ?_⟩
    simp only [get_data]
    rw [if_pos hfresh2]

/-- Counterexample to C6 as stated: a stale cache plus an empty holdings
store makes the pass run and return an error, and that result is NOT stored:
the cache keeps its previous content and its previous `last_updated = 0`
instead of `now = 100`. -/
theorem get_data_error_not_stored :
    (get_data ⟨0, some ⟨"old", []⟩⟩ 100 [] [] [] "t").generated = true
    ∧ (get_data ⟨0, some ⟨"old", []⟩⟩ 100 [] [] [] "t").cache
      = ⟨0, some ⟨"old", []⟩⟩
    ∧ (get_data ⟨0, some ⟨"old", []⟩⟩ 100 [] [] [] "t").cache.last_updated ≠ 100 := by
  have hcalc : get_data ⟨0, some ⟨"old", []⟩⟩ 100 [] [] [] "t"
      = ⟨Except.error "Holdings not found", ⟨0, some ⟨"old", []⟩⟩, [], [], true⟩ := by
    simp only [get_data]
    rw [if_neg (by norm_num [CACHE_DURATION])]
    rfl
  refine ⟨by rw [hcalc], by rw [hcalc], by rw [hcalc]; norm_num⟩

/-- Witness: a miss at time 10 on an empty cache stores the generated
dashboard; a second call at time 30 (within the window) serves it unchanged
without running the pass. -/
theorem get_data_cache_witness :
    get_data ⟨0, none⟩ 10 [("G", [])] [] [] "t"
      = ⟨Except.ok ⟨"t", [⟨"G", 0, 0, "UP", []⟩]⟩,
         ⟨10, some ⟨"t", [⟨"G", 0, 0, "UP", []⟩]⟩⟩, [("G", 0)], [], true⟩
    ∧ get_data ⟨10, some ⟨"t", [⟨"G", 0, 0, "UP", []⟩]⟩⟩ 30 [("G", [])] [] [] "t2"
      = ⟨Except.ok ⟨"t", [⟨"G", 0, 0, "UP", []⟩]⟩,
         ⟨10, some ⟨"t", [⟨"G", 0, 0, "UP", []⟩]⟩⟩, [], [], false⟩ :=
  (get_data_cache ⟨0, none⟩ 10 [("G", [])] [] [] "t").2.2.2 30 _ _ _
    [("G", [])] [] [] "t2" (Or.inl rfl)
    (generate_data_single_empty_fund "G" [] "t")
    (by norm_num [CACHE_DURATION])

/-- C7 (amended): an empty holdings mapping makes `generate_data` return the
explicit error result "Holdings not found" (a value, not an exception — the
embedding is a total function); on a cache miss the error is returned to the
caller and the cache is left untouched, retaining the previous snapshot; a
call while the previous cache entry is still fresh keeps serving that
previous snapshot without running the pass. -/
theorem empty_holdings_error (price_db : Dict PriceInfo) (alert_states : Dict ℕ)
    (ts : String) (cache : Cache) (now : ℚ) :
    generate_data [] price_db alert_states ts
      = Except.error "Holdings not found"
    ∧ ((cache.data = none ∨ ¬ now - cache.last_updated < CACHE_DURATION) →
        get_data cache now [] price_db alert_states ts
          = ⟨Except.error "Holdings not found", cache, alert_states, [], true⟩)
    ∧ (∀ d : Dashboard, cache.data = some d →
        now - cache.last_updated < CACHE_DURATION →
        get_data cache now [] price_db alert_states ts
          = ⟨Except.ok d, cache, alert_states, [], false⟩) := by
  refine ⟨rfl, fun hstale => ?_, fun d hd hfresh => ?_⟩
  · rw [get_data_miss cache now [] price_db alert_states ts hstale]
    rfl
  · simp only [get_data, hd]
    rw [if_pos hfresh]

/-- Counterexample to C7's "the previously cached result continues to be what
the read surface serves": once the cache is stale, the call with an empty
holdings store returns the error dict to the caller — not the previously
cached dashboard, which stays in the cache but is no longer served. -/
theorem stale_cache_serves_error :
    (get_data ⟨0, some ⟨"old", []⟩⟩ 100 [] [] [] "t").response
      = Except.error "Holdings not found"
    ∧ (get_data ⟨0, some ⟨"old", []⟩⟩ 100 [] [] [] "t").response
      ≠ Except.ok ⟨"old", []⟩
    ∧ (get_data ⟨0, some ⟨"old", []⟩⟩ 100 [] [] [] "t").cache.data
      = some ⟨"old", []⟩ := by
  have hcalc : get_data ⟨0, some ⟨"old", []⟩⟩ 100 [] [] [] "t"
      = ⟨Except.error "Holdings not found", ⟨0, some ⟨"old", []⟩⟩, [], [], true⟩ := by
    simp only [get_data]
    rw [if_neg (by norm_num [CACHE_DURATION])]
    rfl
  refine ⟨by rw [hcalc], ?_, by rw [hcalc]⟩
  rw [hcalc]
  intro h
  cases h

/-- Witness: with an empty holdings store, a stale-cache call returns the
error and preserves the cache, and a fresh-cache call still serves the old
dashboard. -/
theorem empty_holdings_error_witness :
    get_data ⟨0, some ⟨"old", []⟩⟩ 100 [] [] [] "t"
      = ⟨Except.error "Holdings not found", ⟨0, some ⟨"old", []⟩⟩, [], [], true⟩
    ∧ get_data ⟨90, some ⟨"old", []⟩⟩ 100 [] [] [] "t"
      = ⟨Except.ok ⟨"old", []⟩, ⟨90, some ⟨"old", []⟩⟩, [], [], false⟩ :=
  ⟨(empty_holdings_error [] [] "t" ⟨0, some ⟨"old", []⟩⟩ 100).2.1
      (Or.inr (by norm_num [CACHE_DURATION])),
   (empty_holdings_error [] [] "t" ⟨90, some ⟨"old", []⟩⟩ 100).2.2 ⟨"old", []⟩
      rfl (by norm_num [CACHE_DURATION])⟩

end CefCaller
